import Mathlib

/-
Shallow embedding of the Appwrite Go SDK HTTP client, package `appwrite`,
as found in `src/client.go` and `src/unnamed/part_000`.  The two files are
near-duplicates; everything that is character-identical between them (the
`Client` struct, the setters, `ensureClientInitialized`, `prepareRequestBody`,
`setHeaders`, `updateQueryParameters`, `parseJSONResponse`) is defined once
in namespace `Appwrite`, and the one function whose text differs between the
files (`Call`, split here into its request-construction part `buildRequest`
and the surrounding I/O composition) is defined twice, in `Appwrite.V1`
(for `src/client.go`) and `Appwrite.V2` (for `src/unnamed/part_000`).

Modelling conventions:
  * Go `map[string]T` values are association lists `List (String × T)`;
    where the nil/non-nil distinction of a Go map is observable (writing to
    a nil map panics, as in `AddHeader` on a zero-value `Client`) the field
    is an `Option` of a list, `none` standing for the nil map.  Reading a
    nil map is fine in Go and is modelled by `Option.getD []`.
  * `interface\x7b\x7d` values occurring in header/param maps are the
    inductive `GoValue`; `GoValue.unsupported` stands for a value
    (function, channel, ...) that `json.Marshal` rejects.
  * The Go standard library pieces the client leans on are embedded at the
    level of their observable behaviour: `http.Header.Set/Get` with MIME
    canonicalisation of keys, `http.NewRequest` with its method validation
    and the `""` → `"GET"` defaulting, `url.Values.Add` (the query is kept
    as a multimap of pairs; the percent-encoded `RawQuery` serialisation is
    not modelled), and `json.Marshal` on a string-keyed map (keys sorted,
    failure iff some value is unsupported; control/HTML character escaping
    is simplified).  The JSON decoder of `parseJSONResponse` is abstracted
    by the `BodyData` type: a response body is either a well-formed JSON
    document or malformed.  Both codecs are external collaborators of the
    client, not code of this repository.
  * The network round trip `clt.client.Do(req)` is a parameter
    `net : Request → Except GoError Response` of `Call`, and the fresh
    `http.Client` handle that `ensureClientInitialized` would allocate is a
    parameter `fresh`.  `Call` returns the updated `Client` paired with its
    Go result, making the frame of the method explicit.
-/

namespace Appwrite

/-- An `http.Client` transport handle, identified by an allocation id. -/
structure HttpTransport where
  id : Nat
deriving DecidableEq, Repr

/-- The `Client` struct of both source files (`src/client.go` lines 13-18).
`client` is the lazily created transport handle (`nil` ↝ `none`), `headers`
is the default-header map (a Go map that may be nil on a zero-value
`Client`). -/
structure Client where
  client : Option HttpTransport
  endpoint : String
  headers : Option (List (String × String))
  selfSigned : Bool
deriving DecidableEq, Repr

/-- The zero value of the `Client` struct: no constructor in this code
initialises the `headers` map, so a freshly declared `Client` has a nil
map. -/
def zeroClient : Client :=
  { client := none, endpoint := "", headers := none, selfSigned := false }

/-- A dynamically typed Go value as it can appear in the
`map[string]interface\x7b\x7d` arguments of `Call`.  `unsupported` stands
for a value `json.Marshal` rejects (func, chan, ...). -/
inductive GoValue where
  | null
  | bool (b : Bool)
  | num (n : Int)
  | str (s : String)
  | unsupported (desc : String)
deriving DecidableEq, Repr

/-- A decoded JSON value, as produced by the response decoder. -/
inductive JValue where
  | null
  | bool (b : Bool)
  | num (n : Int)
  | str (s : String)
  | arr (elems : List JValue)
  | obj (fields : List (String × JValue))
deriving Repr

/-- A response body as seen by the JSON decoder: either one well-formed
JSON document or malformed data. -/
inductive BodyData where
  | json (v : JValue)
  | malformed
deriving Repr

/-- The errors the client can surface: request construction
(`http.NewRequest`), the network round trip (`clt.client.Do`), and
response decoding (`json.Decoder.Decode`). -/
inductive GoError where
  | invalidMethod
  | network (msg : String)
  | decodeError
deriving DecidableEq, Repr

/-- Modelled from the spec: the repository's `ToString` helper is referenced
by `setHeaders` and `updateQueryParameters` but its definition is not under
`src/`; per the spec each value is "converted to its string
representation". -/
def ToString : GoValue → String
  | .null => "<nil>"
  | .bool b => if b then "true" else "false"
  | .num n => toString n
  | .str s => s
  | .unsupported d => d

/-! ### http.Header: MIME key canonicalisation, Set and Get -/

/-- Whether a character is an HTTP token character
(`net/textproto.validHeaderFieldByte`). -/
def isTokenChar (c : Char) : Bool :=
  c.isAlpha || c.isDigit ||
  c = '!' || c = '#' || c = '$' || c = '%' || c = '&' || c = Char.ofNat 39 ||
  c = '*' || c = '+' || c = '-' || c = '.' || c = Char.ofNat 94 || c = '_' ||
  c = Char.ofNat 96 || c = '|' || c = Char.ofNat 126

/-- Character-level worker for `canonicalMIMEHeaderKey`: uppercase the first
letter and every letter following a `-`, lowercase the rest. -/
def canonChars : Bool → List Char → List Char
  | _, [] => []
  | upper, c :: rest =>
    (if upper then c.toUpper else c.toLower) :: canonChars (c = '-') rest

/-- `textproto.CanonicalMIMEHeaderKey`: canonicalise a header key, or return
it unchanged if it contains a non-token character. -/
def canonicalMIMEHeaderKey (s : String) : String :=
  if s.toList.all isTokenChar then ⟨canonChars true s.toList⟩ else s

/-- A `http.Header` is a map from canonical keys to values; since the client
only ever uses `Header.Set` (which replaces), one value per key suffices. -/
abbrev Header := List (String × String)

/-- Drop every entry stored under the canonical key `ck`. -/
def headerRemove (ck : String) : Header → Header
  | [] => []
  | p :: t => if p.1 = ck then headerRemove ck t else p :: headerRemove ck t

/-- Look up the value stored under the canonical key `ck`. -/
def headerLookup (ck : String) : Header → Option String
  | [] => none
  | p :: t => if p.1 = ck then some p.2 else headerLookup ck t

/-- `http.Header.Set`: canonicalise the key and replace any existing
value. -/
def headerSet (h : Header) (key value : String) : Header :=
  headerRemove (canonicalMIMEHeaderKey key) h
    ++ [(canonicalMIMEHeaderKey key, value)]

/-- `http.Header.Get`: canonicalise the key and look it up. -/
def headerGet (h : Header) (key : String) : Option String :=
  headerLookup (canonicalMIMEHeaderKey key) h

/-! ### URL, Request, Response -/

/-- The parts of `url.URL` the client touches: the pre-`?` portion and the
query, kept as the `url.Values` multimap (`RawQuery` re-encoding is a
serialisation of this data and is not modelled). -/
structure URL where
  base : String
  query : List (String × String)
deriving DecidableEq, Repr

/-- The parts of `http.Request` the client builds. -/
structure Request where
  method : String
  url : URL
  header : Header
  body : Option String
deriving DecidableEq, Repr

/-- The parts of `http.Response` the client reads.  `Call` never looks at
`status`. -/
structure Response where
  status : Nat
  body : BodyData
deriving Repr

/-- `strings.ToUpper` (ASCII fragment, which is all the `"GET"` comparison
needs). -/
def stringsToUpper (s : String) : String :=
  ⟨s.toList.map Char.toUpper⟩

/-- Split a character list at the first occurrence of `c`, if any. -/
def breakAtChar (c : Char) : List Char → Option (List Char × List Char)
  | [] => none
  | x :: xs =>
    if x = c then some ([], xs)
    else (breakAtChar c xs).map (fun p => (x :: p.1, p.2))

/-- Split a character list on every occurrence of `c`. -/
def splitListOn (c : Char) : List Char → List (List Char)
  | [] => [[]]
  | x :: xs =>
    if x = c then [] :: splitListOn c xs
    else
      match splitListOn c xs with
      | [] => [[x]]
      | seg :: rest => (x :: seg) :: rest

/-- Parse a raw query string into `url.Values` pairs: split on `&`, each
component at its first `=` (percent-decoding is not modelled; none of the
claims depends on it). -/
def parseQueryPairs (s : String) : List (String × String) :=
  (splitListOn '&' s.toList).filterMap fun seg =>
    if seg = [] then none
    else
      match breakAtChar '=' seg with
      | none => some (⟨seg⟩, "")
      | some kv => some (⟨kv.1⟩, ⟨kv.2⟩)

/-- Split a URL string at its first `?` into base and parsed query, as
`url.Parse` populates `Path`/`RawQuery` (fragments are not modelled). -/
def splitQuery (urlPath : String) : String × List (String × String) :=
  match breakAtChar (Char.ofNat 63) urlPath.toList with
  | none => (urlPath, [])
  | some pq => (⟨pq.1⟩, parseQueryPairs ⟨pq.2⟩)

/-- `net/http.validMethod`: non-empty and all token characters. -/
def validMethod (m : String) : Bool :=
  m ≠ "" && m.toList.all isTokenChar

/-- `http.NewRequest(method, urlPath, body)`: an empty method defaults to
GET, an invalid method is an error, and the URL is parsed into base and
query.  (URL parse failures other than the method check are not modelled;
no claim depends on them.) -/
def newRequest (method urlPath : String) (body : Option String) :
    Except GoError Request :=
  let m := if method = "" then "GET" else method
  if validMethod m then
    let pq := splitQuery urlPath
    .ok { method := m, url := { base := pq.1, query := pq.2 },
          header := [], body := body }
  else
    .error .invalidMethod

/-! ### json.Marshal on a string-keyed map -/

/-- Escape one character for a JSON string (quote, backslash and common
control characters; Go's `\u00XX` and HTML escaping are simplified away —
no claim depends on the exact escape table). -/
def escapeJSONChar (c : Char) : String :=
  if c = '"' then "\\\""
  else if c = '\\' then "\\\\"
  else if c = '\n' then "\\n"
  else if c = '\r' then "\\r"
  else if c = '\t' then "\\t"
  else String.singleton c

/-- Serialise a string as a quoted JSON string. -/
def escapeJSONString (s : String) : String :=
  "\"" ++ String.join (s.toList.map escapeJSONChar) ++ "\""

/-- `json.Marshal` on a single `interface\x7b\x7d` value; fails on
unsupported values. -/
def jsonMarshalValue : GoValue → Option String
  | .null => some "null"
  | .bool b => some (if b then "true" else "false")
  | .num n => some (toString n)
  | .str s => some (escapeJSONString s)
  | .unsupported _ => none

/-- Lexicographic order on character lists by code point (for UTF-8 this
matches Go's byte order on strings). -/
def charListLe : List Char → List Char → Bool
  | [], _ => true
  | _ :: _, [] => false
  | a :: as, b :: bs => if a = b then charListLe as bs else a.toNat < b.toNat

/-- String order used by `sort.Strings` when `json.Marshal` sorts map
keys. -/
def strLe (a b : String) : Bool :=
  charListLe a.toList b.toList

/-- Insert one entry into a key-sorted entry list (Go's `json.Marshal`
emits map keys in sorted order). -/
def insertByKey (p : String × GoValue) :
    List (String × GoValue) → List (String × GoValue)
  | [] => [p]
  | q :: rest =>
    if strLe p.1 q.1 then p :: q :: rest else q :: insertByKey p rest

/-- Sort map entries by key. -/
def sortByKey (l : List (String × GoValue)) : List (String × GoValue) :=
  l.foldr insertByKey []

/-- Serialise each entry as `"key":value`, failing if any value is
unsupported. -/
def jsonMarshalEntries : List (String × GoValue) → Option (List String)
  | [] => some []
  | (k, v) :: rest =>
    match jsonMarshalValue v, jsonMarshalEntries rest with
    | some sv, some srest => some ((escapeJSONString k ++ ":" ++ sv) :: srest)
    | _, _ => none

/-- `json.Marshal` on a `map[string]interface\x7b\x7d`: keys sorted,
entries comma-joined inside braces; an error iff some value is
unsupported.  (The nil map, which Go would marshal as `null`, is identified
with the empty map here; no claim distinguishes them.) -/
def jsonMarshalMap (params : List (String × GoValue)) : Option String :=
  match jsonMarshalEntries (sortByKey params) with
  | none => none
  | some es => some ("\x7b" ++ String.intercalate "," es ++ "\x7d")

/-! ### Client configuration setters (identical in both source files) -/

/-- Go map assignment `m[k] = v` on a non-nil map: replace by exact key. -/
def mapAssign (m : List (String × String)) (k v : String) :
    List (String × String) :=
  m.filter (fun p => p.1 ≠ k) ++ [(k, v)]

/-- Write `clt.headers[key] = value`; writing to a nil map panics in Go,
modelled as `none`. -/
def writeHeader (clt : Client) (key value : String) : Option Client :=
  match clt.headers with
  | none => none
  | some h => some { clt with headers := some (mapAssign h key value) }

/-- `SetEndpoint` sets the default endpoint to which the Client connects. -/
def SetEndpoint (clt : Client) (endpoint : String) : Client :=
  { clt with endpoint := endpoint }

/-- `SetSelfSigned` stores the self-signed-certificate flag. -/
def SetSelfSigned (clt : Client) (status : Bool) : Client :=
  { clt with selfSigned := status }

/-- `AddHeader` adds a custom header sent on each request
(`clt.headers[key] = value`). -/
def AddHeader (clt : Client) (key value : String) : Option Client :=
  writeHeader clt key value

/-- `SetProject` sets the `X-Appwrite-Project` default header. -/
def SetProject (clt : Client) (value : String) : Option Client :=
  writeHeader clt "X-Appwrite-Project" value

/-- `SetKey` sets the `X-Appwrite-Key` default header. -/
def SetKey (clt : Client) (value : String) : Option Client :=
  writeHeader clt "X-Appwrite-Key" value

/-- `SetLocale` sets the `X-Appwrite-Locale` default header. -/
def SetLocale (clt : Client) (value : String) : Option Client :=
  writeHeader clt "X-Appwrite-Locale" value

/-- `SetMode` sets the `X-Appwrite-Mode` default header. -/
def SetMode (clt : Client) (value : String) : Option Client :=
  writeHeader clt "X-Appwrite-Mode" value

/-! ### The helpers of Call (identical in both source files up to log text) -/

/-- `ensureClientInitialized`: create the HTTP transport if it is nil.
`fresh` is the handle `&http.Client\x7b\x7d` would allocate. -/
def ensureClientInitialized (clt : Client) (fresh : HttpTransport) : Client :=
  if clt.client = none then { clt with client := some fresh } else clt

/-- `prepareRequestBody`: marshal the params to JSON; on a marshal error the
Go code logs and returns a nil reader, so the request is built with no
body (`none`). -/
def prepareRequestBody (params : List (String × GoValue)) : Option String :=
  match jsonMarshalMap params with
  | none => none
  | some jsonData => some jsonData

/-- `setHeaders`: set every Client default header on the request, then set
every per-call custom header (iterating a nil default map performs no
iterations). -/
def setHeaders (req : Request) (clientHeaders : Option (List (String × String)))
    (customHeaders : List (String × GoValue)) : Request :=
  let h1 := (clientHeaders.getD []).foldl (fun h p => headerSet h p.1 p.2)
    req.header
  let h2 := customHeaders.foldl (fun h p => headerSet h p.1 (ToString p.2)) h1
  { req with header := h2 }

/-- `updateQueryParameters`: `q := req.URL.Query()`, `q.Add` each param with
its string representation, write the query back. -/
def updateQueryParameters (req : Request) (params : List (String × GoValue)) :
    Request :=
  { req with
      url := { req.url with
        query := params.foldl (fun q p => q ++ [(p.1, ToString p.2)])
          req.url.query } }

/-- The JSON decoder's view of a body when decoding into
`map[string]interface\x7b\x7d`: a JSON object yields its fields, the JSON
document `null` leaves the map nil (identified with the empty mapping), any
other document or malformed data is a decode error. -/
def decodeBody : BodyData → Option (List (String × JValue))
  | .json (.obj fields) => some fields
  | .json .null => some []
  | .json _ => none
  | .malformed => none

/-- `parseJSONResponse`: decode the response body as JSON into a generic
mapping; decode failure surfaces as an error.  The status code is not
consulted. -/
def parseJSONResponse (response : Response) :
    Except GoError (List (String × JValue)) :=
  match decodeBody response.body with
  | some jsonResponse => .ok jsonResponse
  | none => .error .decodeError

/-! ### src/client.go -/

namespace V1

/-- The request-construction part of `Call` in `src/client.go` (lines
57-77): concatenate endpoint and path, prepare a JSON body for non-GET
methods, create the request, apply both header layers, then either merge
the params into the query (GET) or force `Content-Type: application/json`
(non-GET). -/
def buildRequest (clt : Client) (method path : String)
    (headers params : List (String × GoValue)) : Except GoError Request :=
  let urlPath := clt.endpoint ++ path
  let isGet := stringsToUpper method = "GET"
  let reqBody : Option String :=
    if isGet then none else prepareRequestBody params
  match newRequest method urlPath reqBody with
  | .error e => .error e
  | .ok req =>
    let req := setHeaders req clt.headers headers
    if isGet then
      .ok (updateQueryParameters req params)
    else
      .ok { req with
        header := headerSet req.header "Content-Type" "application/json" }

/-- `Call` of `src/client.go`: ensure the transport exists, build the
request, run it through the network (`net` stands for `clt.client.Do`),
decode the response.  The updated Client is returned alongside the Go
result. -/
def Call (net : Request → Except GoError Response) (fresh : HttpTransport)
    (clt : Client) (method path : String)
    (headers params : List (String × GoValue)) :
    Client × Except GoError (List (String × JValue)) :=
  let clt := ensureClientInitialized clt fresh
  match buildRequest clt method path headers params with
  | .error e => (clt, .error e)
  | .ok req =>
    match net req with
    | .error e => (clt, .error e)
    | .ok response =>
      match parseJSONResponse response with
      | .error e => (clt, .error e)
      | .ok jsonResponse => (clt, .ok jsonResponse)

end V1

/-! ### src/unnamed/part_000 -/

namespace V2

/-- The request-construction part of `Call` in `src/unnamed/part_000`
(lines 58-82): identical to `V1.buildRequest` except that no
`Content-Type` header is forced for non-GET requests. -/
def buildRequest (clt : Client) (method path : String)
    (headers params : List (String × GoValue)) : Except GoError Request :=
  let urlPath := clt.endpoint ++ path
  let isGet := stringsToUpper method = "GET"
  let reqBody : Option String :=
    if isGet then none else prepareRequestBody params
  match newRequest method urlPath reqBody with
  | .error e => .error e
  | .ok req =>
    let req := setHeaders req clt.headers headers
    if isGet then
      .ok (updateQueryParameters req params)
    else
      .ok req

/-- `Call` of `src/unnamed/part_000`: same composition as `V1.Call`, built
on this file's `buildRequest`. -/
def Call (net : Request → Except GoError Response) (fresh : HttpTransport)
    (clt : Client) (method path : String)
    (headers params : List (String × GoValue)) :
    Client × Except GoError (List (String × JValue)) :=
  let clt := ensureClientInitialized clt fresh
  match buildRequest clt method path headers params with
  | .error e => (clt, .error e)
  | .ok req =>
    match net req with
    | .error e => (clt, .error e)
    | .ok response =>
      match parseJSONResponse response with
      | .error e => (clt, .error e)
      | .ok jsonResponse => (clt, .ok jsonResponse)

end V2

/-! ### Lemmas about the embedded operations -/

theorem prepareRequestBody_eq (params : List (String × GoValue)) :
    prepareRequestBody params = jsonMarshalMap params := by
  unfold prepareRequestBody
  cases jsonMarshalMap params <;> rfl

theorem newRequest_ok (method urlPath : String) (body : Option String)
    (req : Request) (h : newRequest method urlPath body = .ok req) :
    req.body = body ∧ req.header = [] ∧
      req.url.query = (splitQuery urlPath).2 := by
  simp only [newRequest] at h
  by_cases h0 : method = ""
  · rw [if_pos h0] at h
    rw [if_pos (by decide : validMethod "GET" = true)] at h
    cases h
    exact ⟨rfl, rfl, rfl⟩
  · rw [if_neg h0] at h
    by_cases hv : validMethod method = true
    · rw [if_pos hv] at h
      cases h
      exact ⟨rfl, rfl, rfl⟩
    · rw [if_neg hv] at h
      cases h

theorem setHeaders_body (req : Request) (cH : Option (List (String × String)))
    (custH : List (String × GoValue)) :
    (setHeaders req cH custH).body = req.body := rfl

theorem setHeaders_url (req : Request) (cH : Option (List (String × String)))
    (custH : List (String × GoValue)) :
    (setHeaders req cH custH).url = req.url := rfl

theorem updateQueryParameters_body (req : Request)
    (params : List (String × GoValue)) :
    (updateQueryParameters req params).body = req.body := rfl

theorem updateQueryParameters_query (req : Request)
    (params : List (String × GoValue)) :
    (updateQueryParameters req params).url.query
      = params.foldl (fun q p => q ++ [(p.1, ToString p.2)]) req.url.query :=
  rfl

theorem foldl_append_query (params : List (String × GoValue))
    (init : List (String × String)) :
    params.foldl (fun q p => q ++ [(p.1, ToString p.2)]) init
      = init ++ params.map (fun p => (p.1, ToString p.2)) := by
  induction params generalizing init with
  | nil => simp
  | cons p t ih => simp [List.foldl_cons, ih]

theorem headerLookup_append (ck : String) (l1 l2 : Header) :
    headerLookup ck (l1 ++ l2) = (headerLookup ck l1).or (headerLookup ck l2) := by
  induction l1 with
  | nil => simp [headerLookup]
  | cons q t ih =>
    by_cases hq : q.1 = ck <;> simp [headerLookup, hq, ih]

theorem headerLookup_headerRemove_self (ck : String) (t : Header) :
    headerLookup ck (headerRemove ck t) = none := by
  induction t with
  | nil => rfl
  | cons q t ih =>
    by_cases hq : q.1 = ck <;> simp [headerRemove, headerLookup, hq, ih]

theorem headerLookup_headerRemove_ne (ck ck2 : String) (t : Header)
    (hne : ck ≠ ck2) :
    headerLookup ck2 (headerRemove ck t) = headerLookup ck2 t := by
  induction t with
  | nil => rfl
  | cons q t ih =>
    by_cases hq : q.1 = ck
    · have hq2 : ¬ q.1 = ck2 := by rw [hq]; exact hne
      simp [headerRemove, headerLookup, hq, hq2, ih, hne, Ne.symm hne]
    · by_cases hq2 : q.1 = ck2 <;>
        simp [headerRemove, headerLookup, hq, hq2, ih, hne, Ne.symm hne]

theorem headerGet_headerSet_self (h : Header) (k v k2 : String)
    (hk : canonicalMIMEHeaderKey k2 = canonicalMIMEHeaderKey k) :
    headerGet (headerSet h k v) k2 = some v := by
  unfold headerGet headerSet
  rw [hk, headerLookup_append, headerLookup_headerRemove_self]
  simp [headerLookup]

theorem headerGet_headerSet_ne (h : Header) (k v k2 : String)
    (hk : canonicalMIMEHeaderKey k2 ≠ canonicalMIMEHeaderKey k) :
    headerGet (headerSet h k v) k2 = headerGet h k2 := by
  unfold headerGet headerSet
  rw [headerLookup_append,
    headerLookup_headerRemove_ne _ _ _ (Ne.symm hk)]
  simp [headerLookup, Ne.symm hk]

theorem headerGet_foldl_default_ne (l : List (String × String)) (h : Header)
    (k : String)
    (hall : ∀ p ∈ l, canonicalMIMEHeaderKey p.1 ≠ canonicalMIMEHeaderKey k) :
    headerGet (l.foldl (fun acc p => headerSet acc p.1 p.2) h) k
      = headerGet h k := by
  induction l generalizing h with
  | nil => rfl
  | cons q t ih =>
    rw [List.foldl_cons, ih _ fun p hp => hall p (List.mem_cons_of_mem q hp),
      headerGet_headerSet_ne _ _ _ _ (hall q (List.mem_cons_self q t)).symm]

theorem headerGet_foldl_default_mem (l : List (String × String)) (h : Header)
    (k v : String) (hmem : (k, v) ∈ l)
    (hdist : l.Pairwise
      fun a b => canonicalMIMEHeaderKey a.1 ≠ canonicalMIMEHeaderKey b.1) :
    headerGet (l.foldl (fun acc p => headerSet acc p.1 p.2) h) k = some v := by
  induction l generalizing h with
  | nil => cases hmem
  | cons q t ih =>
    rw [List.pairwise_cons] at hdist
    rcases List.mem_cons.mp hmem with heq | hmem2
    · subst heq
      rw [List.foldl_cons,
        headerGet_foldl_default_ne t _ k fun p hp => (hdist.1 p hp).symm]
      exact headerGet_headerSet_self h k v k rfl
    · exact ih (headerSet h q.1 q.2) hmem2 hdist.2

theorem headerGet_foldl_custom_ne (l : List (String × GoValue)) (h : Header)
    (k : String)
    (hall : ∀ p ∈ l, canonicalMIMEHeaderKey p.1 ≠ canonicalMIMEHeaderKey k) :
    headerGet (l.foldl (fun acc p => headerSet acc p.1 (ToString p.2)) h) k
      = headerGet h k := by
  induction l generalizing h with
  | nil => rfl
  | cons q t ih =>
    rw [List.foldl_cons, ih _ fun p hp => hall p (List.mem_cons_of_mem q hp),
      headerGet_headerSet_ne _ _ _ _ (hall q (List.mem_cons_self q t)).symm]

theorem headerGet_foldl_custom_mem (l : List (String × GoValue)) (h : Header)
    (k : String) (v : GoValue) (hmem : (k, v) ∈ l)
    (hdist : l.Pairwise
      fun a b => canonicalMIMEHeaderKey a.1 ≠ canonicalMIMEHeaderKey b.1) :
    headerGet (l.foldl (fun acc p => headerSet acc p.1 (ToString p.2)) h) k
      = some (ToString v) := by
  induction l generalizing h with
  | nil => cases hmem
  | cons q t ih =>
    rw [List.pairwise_cons] at hdist
    rcases List.mem_cons.mp hmem with heq | hmem2
    · subst heq
      rw [List.foldl_cons,
        headerGet_foldl_custom_ne t _ k fun p hp => (hdist.1 p hp).symm]
      exact headerGet_headerSet_self h k (ToString v) k rfl
    · exact ih (headerSet h q.1 (ToString q.2)) hmem2 hdist.2

theorem ensureClientInitialized_client (clt : Client) (fresh : HttpTransport) :
    (ensureClientInitialized clt fresh).client
      = some (clt.client.getD fresh) := by
  unfold ensureClientInitialized
  cases hc : clt.client <;> simp [hc]

theorem ensureClientInitialized_endpoint (clt : Client)
    (fresh : HttpTransport) :
    (ensureClientInitialized clt fresh).endpoint = clt.endpoint := by
  unfold ensureClientInitialized
  split <;> rfl

theorem ensureClientInitialized_headers (clt : Client)
    (fresh : HttpTransport) :
    (ensureClientInitialized clt fresh).headers = clt.headers := by
  unfold ensureClientInitialized
  split <;> rfl

theorem ensureClientInitialized_selfSigned (clt : Client)
    (fresh : HttpTransport) :
    (ensureClientInitialized clt fresh).selfSigned = clt.selfSigned := by
  unfold ensureClientInitialized
  split <;> rfl

theorem V1Call_fst (net : Request → Except GoError Response)
    (fresh : HttpTransport) (clt : Client) (m p : String)
    (hs ps : List (String × GoValue)) :
    (V1.Call net fresh clt m p hs ps).1 = ensureClientInitialized clt fresh := by
  rcases hb : V1.buildRequest (ensureClientInitialized clt fresh) m p hs ps
    with e | req
  · simp [V1.Call, hb]
  · rcases hn : net req with e | resp
    · simp [V1.Call, hb, hn]
    · rcases hp : parseJSONResponse resp with e | j
      · simp [V1.Call, hb, hn, hp]
      · simp [V1.Call, hb, hn, hp]

theorem V2Call_fst (net : Request → Except GoError Response)
    (fresh : HttpTransport) (clt : Client) (m p : String)
    (hs ps : List (String × GoValue)) :
    (V2.Call net fresh clt m p hs ps).1 = ensureClientInitialized clt fresh := by
  rcases hb : V2.buildRequest (ensureClientInitialized clt fresh) m p hs ps
    with e | req
  · simp [V2.Call, hb]
  · rcases hn : net req with e | resp
    · simp [V2.Call, hb, hn]
    · rcases hp : parseJSONResponse resp with e | j
      · simp [V2.Call, hb, hn, hp]
      · simp [V2.Call, hb, hn, hp]

theorem V1_buildRequest_nonGet (clt : Client) (m p : String)
    (hs ps : List (String × GoValue)) (req : Request)
    (hm : ¬ stringsToUpper m = "GET")
    (h : V1.buildRequest clt m p hs ps = .ok req) :
    ∃ req0, newRequest m (clt.endpoint ++ p) (prepareRequestBody ps) = .ok req0
      ∧ req = { setHeaders req0 clt.headers hs with
          header := headerSet (setHeaders req0 clt.headers hs).header
            "Content-Type" "application/json" } := by
  simp only [V1.buildRequest, hm, if_false] at h
  cases hn : newRequest m (clt.endpoint ++ p) (prepareRequestBody ps) with
  | error e => rw [hn] at h; cases h
  | ok req0 =>
    rw [hn] at h
    cases h
    exact ⟨req0, rfl, rfl⟩

theorem V1_buildRequest_get (clt : Client) (m p : String)
    (hs ps : List (String × GoValue)) (req : Request)
    (hm : stringsToUpper m = "GET")
    (h : V1.buildRequest clt m p hs ps = .ok req) :
    ∃ req0, newRequest m (clt.endpoint ++ p) none = .ok req0
      ∧ req = updateQueryParameters (setHeaders req0 clt.headers hs) ps := by
  simp only [V1.buildRequest, hm, eq_self_iff_true, if_true] at h
  cases hn : newRequest m (clt.endpoint ++ p) none with
  | error e => rw [hn] at h; cases h
  | ok req0 =>
    rw [hn] at h
    cases h
    exact ⟨req0, rfl, rfl⟩

/-! ### Claim C1 -/

/-- Non-GET params whose value `json.Marshal` rejects. -/
def c1Params : List (String × GoValue) := [("callback", .unsupported "func")]

/-- A client with an initialised transport and empty default headers. -/
def c1Client : Client :=
  { client := some ⟨1⟩, endpoint := "e", headers := some [], selfSigned := false }

/-- A network oracle answering 200 with an empty JSON object. -/
def c1Net : Request → Except GoError Response :=
  fun _ => .ok { status := 200, body := .json (.obj []) }

/-- C1: the claim says a non-GET `Call` whose params fail JSON serialization
returns an error.  The code does the opposite: at a failing input
(`c1Params`, whose marshalling fails), both variants build the request with
a null body and `Call` completes successfully, returning the decoded
response instead of an error. -/
theorem C1_serialization_failure_swallowed :
    jsonMarshalMap c1Params = none
    ∧ (V1.buildRequest c1Client "POST" "/v1/db" [] c1Params).toOption.map
        (·.body) = some none
    ∧ (V2.buildRequest c1Client "POST" "/v1/db" [] c1Params).toOption.map
        (·.body) = some none
    ∧ (V1.Call c1Net ⟨0⟩ c1Client "POST" "/v1/db" [] c1Params).2 = .ok []
    ∧ (V2.Call c1Net ⟨0⟩ c1Client "POST" "/v1/db" [] c1Params).2 = .ok [] :=
  ⟨rfl, rfl, rfl, rfl, rfl⟩

/-! ### Claim C2 -/

/-- C2: for every non-GET invocation (method not case-insensitively `GET`),
the request built by `Call` in `src/client.go` carries exactly the JSON
encoding of the params map as its body (`none` exactly when marshalling
fails, see C1), and its `Content-Type` header is `application/json`
unconditionally — being set after both header layers, it holds whatever
the params and header arguments are. -/
theorem C2_nonGet_body_and_forced_content_type
    (clt : Client) (method path : String)
    (headers params : List (String × GoValue)) (req : Request)
    (hm : ¬ stringsToUpper method = "GET")
    (hreq : V1.buildRequest clt method path headers params = .ok req) :
    req.body = jsonMarshalMap params ∧
    headerGet req.header "Content-Type" = some "application/json" := by
  obtain ⟨req0, hn, rfl⟩ :=
    V1_buildRequest_nonGet clt method path headers params req hm hreq
  obtain ⟨hb, -, -⟩ := newRequest_ok _ _ _ _ hn
  constructor
  · show (setHeaders req0 clt.headers headers).body = _
    rw [setHeaders_body, hb, prepareRequestBody_eq]
  · exact headerGet_headerSet_self _ _ _ _ rfl

/-- Client for the C2 witness. -/
def c2Client : Client :=
  { client := some ⟨1⟩, endpoint := "e", headers := some [], selfSigned := false }

/-- The request `src/client.go` builds for `POST /p` with no headers and no
params on `c2Client`. -/
def c2Req : Request :=
  { method := "POST", url := { base := "e/p", query := [] },
    header := [("Content-Type", "application/json")], body := some "\x7b\x7d" }

/-- Witness for C2 at the concrete input `POST /p`. -/
theorem C2_witness :
    (¬ stringsToUpper "POST" = "GET")
    ∧ V1.buildRequest c2Client "POST" "/p" [] [] = .ok c2Req
    ∧ (c2Req.body = jsonMarshalMap []
       ∧ headerGet c2Req.header "Content-Type" = some "application/json") :=
  ⟨by decide, rfl,
    C2_nonGet_body_and_forced_content_type c2Client "POST" "/p" [] [] c2Req
      (by decide) rfl⟩

/-! ### Claim C3 -/

/-- C3: for every invocation whose method case-insensitively equals `GET`,
the request built by `Call` in `src/client.go` has no body, and every
key/value entry of the params map appears in the URL query with its string
representation. -/
theorem C3_get_empty_body_and_params_in_query
    (clt : Client) (method path : String)
    (headers params : List (String × GoValue)) (req : Request)
    (hm : stringsToUpper method = "GET")
    (hreq : V1.buildRequest clt method path headers params = .ok req) :
    req.body = none ∧
    ∀ kv ∈ params, (kv.1, ToString kv.2) ∈ req.url.query := by
  obtain ⟨req0, hn, rfl⟩ :=
    V1_buildRequest_get clt method path headers params req hm hreq
  obtain ⟨hb, -, -⟩ := newRequest_ok _ _ _ _ hn
  refine ⟨?_, ?_⟩
  · rw [updateQueryParameters_body, setHeaders_body, hb]
  · intro kv hkv
    rw [updateQueryParameters_query, foldl_append_query]
    exact List.mem_append_right _ (List.mem_map_of_mem _ hkv)

/-- Client for the C3 witness. -/
def c3Client : Client :=
  { client := none, endpoint := "e", headers := some [("X-One", "1")],
    selfSigned := false }

/-- The request `src/client.go` builds for `get /p` with param `a = "b"` on
`c3Client`. -/
def c3Req : Request :=
  { method := "get", url := { base := "e/p", query := [("a", "b")] },
    header := [("X-One", "1")], body := none }

/-- Witness for C3 at the concrete input `get /p` with one param. -/
theorem C3_witness :
    stringsToUpper "get" = "GET"
    ∧ V1.buildRequest c3Client "get" "/p" [] [("a", .str "b")] = .ok c3Req
    ∧ (c3Req.body = none
       ∧ ("a", ToString (GoValue.str "b")) ∈ c3Req.url.query) := by
  refine ⟨by decide, rfl, ?_⟩
  obtain ⟨h1, h2⟩ := C3_get_empty_body_and_params_in_query c3Client "get" "/p"
    [] [("a", .str "b")] c3Req (by decide) rfl
  exact ⟨h1, h2 ("a", .str "b") (by simp)⟩

/-! ### Claim C4 -/

/-- C4: `setHeaders` (the header-application step every `Call` performs, in
both files) applies the Client default headers first and the per-call
custom headers second, so a custom header always wins on a key collision
and a default header survives exactly when no custom header collides with
it.  The `Pairwise` hypotheses state that within each Go map no two keys
collide after MIME canonicalisation (distinct map keys can otherwise alias
the same header, making the outcome iteration-order dependent). -/
theorem C4_custom_headers_override_defaults
    (req : Request) (defaults : List (String × String))
    (customs : List (String × GoValue))
    (hd : defaults.Pairwise
      fun a b => canonicalMIMEHeaderKey a.1 ≠ canonicalMIMEHeaderKey b.1)
    (hc : customs.Pairwise
      fun a b => canonicalMIMEHeaderKey a.1 ≠ canonicalMIMEHeaderKey b.1) :
    (∀ kv ∈ customs,
      headerGet (setHeaders req (some defaults) customs).header kv.1
        = some (ToString kv.2)) ∧
    (∀ kv ∈ defaults,
      (∀ kv2 ∈ customs,
        canonicalMIMEHeaderKey kv2.1 ≠ canonicalMIMEHeaderKey kv.1) →
      headerGet (setHeaders req (some defaults) customs).header kv.1
        = some kv.2) := by
  constructor
  · rintro ⟨k, v⟩ hkv
    exact headerGet_foldl_custom_mem customs _ k v hkv hc
  · rintro ⟨k, v⟩ hkv hnc
    show headerGet (customs.foldl (fun acc p => headerSet acc p.1 (ToString p.2))
      (defaults.foldl (fun acc p => headerSet acc p.1 p.2) req.header)) k
        = some v
    rw [headerGet_foldl_custom_ne customs _ k hnc]
    exact headerGet_foldl_default_mem defaults _ k v hkv hd

/-- Request for the C4 witness. -/
def c4Req : Request :=
  { method := "POST", url := { base := "e/p", query := [] }, header := [],
    body := none }

/-- Default headers for the C4 witness (note `Content-Type` collides with a
custom `content-type` after canonicalisation). -/
def c4Defaults : List (String × String) :=
  [("X-One", "1"), ("Content-Type", "text/a")]

/-- Custom headers for the C4 witness. -/
def c4Customs : List (String × GoValue) :=
  [("content-type", .str "b"), ("X-Two", .num 2)]

/-- Witness for C4: the colliding custom header wins, the non-colliding
default survives. -/
theorem C4_witness :
    headerGet (setHeaders c4Req (some c4Defaults) c4Customs).header
      "content-type" = some "b" ∧
    headerGet (setHeaders c4Req (some c4Defaults) c4Customs).header
      "X-One" = some "1" :=
  ⟨(C4_custom_headers_override_defaults c4Req c4Defaults c4Customs
      (by decide) (by decide)).1 ("content-type", .str "b")
      (by simp [c4Customs]),
   (C4_custom_headers_override_defaults c4Req c4Defaults c4Customs
      (by decide) (by decide)).2 ("X-One", "1") (by simp [c4Defaults])
      (by decide)⟩

/-! ### Claim C5 -/

/-- C5: when the round trip succeeds, `Call` never inspects the HTTP status
code, in either source file: with a valid JSON object body the decoded
fields are returned as a success for any status (404 and 500 included),
and for any fixed body the whole result of `Call` is identical across
different statuses.  The two `hreq` hypotheses state that the respective
variant gets as far as its network round trip. -/
theorem C5_status_code_ignored
    (clt : Client) (fresh : HttpTransport) (method path : String)
    (headers params : List (String × GoValue)) (req req2 : Request)
    (s1 s2 : Nat) (fields : List (String × JValue)) (b : BodyData)
    (hreq : V1.buildRequest (ensureClientInitialized clt fresh) method path
      headers params = .ok req)
    (hreq2 : V2.buildRequest (ensureClientInitialized clt fresh) method path
      headers params = .ok req2) :
    ((V1.Call (fun _ => .ok { status := s1, body := .json (.obj fields) })
        fresh clt method path headers params).2 = .ok fields ∧
      V1.Call (fun _ => .ok { status := s1, body := b }) fresh clt method
        path headers params
        = V1.Call (fun _ => .ok { status := s2, body := b }) fresh clt
          method path headers params) ∧
    ((V2.Call (fun _ => .ok { status := s1, body := .json (.obj fields) })
        fresh clt method path headers params).2 = .ok fields ∧
      V2.Call (fun _ => .ok { status := s1, body := b }) fresh clt method
        path headers params
        = V2.Call (fun _ => .ok { status := s2, body := b }) fresh clt
          method path headers params) := by
  refine ⟨⟨?_, ?_⟩, ⟨?_, ?_⟩⟩
  · simp [V1.Call, hreq, parseJSONResponse, decodeBody]
  · cases hb : decodeBody b <;>
      simp [V1.Call, hreq, parseJSONResponse, hb]
  · simp [V2.Call, hreq2, parseJSONResponse, decodeBody]
  · cases hb : decodeBody b <;>
      simp [V2.Call, hreq2, parseJSONResponse, hb]

/-- Client for the C5 witness. -/
def c5Client : Client :=
  { client := some ⟨3⟩, endpoint := "e", headers := some [],
    selfSigned := false }

/-- The request `src/client.go` builds for `GET /s` on `c5Client`. -/
def c5Req : Request :=
  { method := "GET", url := { base := "e/s", query := [] }, header := [],
    body := none }

/-- A 404 response carrying a valid JSON object body. -/
def c5Resp404 : Response :=
  { status := 404, body := .json (.obj [("ok", .bool true)]) }

/-- A 404 response with a malformed body. -/
def c5Bad404 : Response := { status := 404, body := .malformed }

/-- A 200 response with a malformed body. -/
def c5Bad200 : Response := { status := 200, body := .malformed }

/-- Witness for C5: in both variants a 404 response with a JSON object body
is returned as a success, and a 404 and a 200 response with the same body
give the same result. -/
theorem C5_witness :
    V1.buildRequest (ensureClientInitialized c5Client ⟨0⟩) "GET" "/s" [] []
      = .ok c5Req
    ∧ V2.buildRequest (ensureClientInitialized c5Client ⟨0⟩) "GET" "/s" [] []
      = .ok c5Req
    ∧ (((V1.Call (fun _ => .ok c5Resp404) ⟨0⟩ c5Client "GET" "/s" [] []).2
          = .ok [("ok", .bool true)]
        ∧ V1.Call (fun _ => .ok c5Bad404) ⟨0⟩ c5Client "GET" "/s" [] []
          = V1.Call (fun _ => .ok c5Bad200) ⟨0⟩ c5Client "GET" "/s" [] [])
       ∧ ((V2.Call (fun _ => .ok c5Resp404) ⟨0⟩ c5Client "GET" "/s" [] []).2
            = .ok [("ok", .bool true)]
          ∧ V2.Call (fun _ => .ok c5Bad404) ⟨0⟩ c5Client "GET" "/s" [] []
            = V2.Call (fun _ => .ok c5Bad200) ⟨0⟩ c5Client "GET" "/s" [] [])) :=
  ⟨rfl, rfl, C5_status_code_ignored c5Client ⟨0⟩ "GET" "/s" [] [] c5Req
    c5Req 404 200 [("ok", .bool true)] .malformed rfl rfl⟩

/-! ### Claim C6 -/

/-- C6: whenever the response body does not decode into a string-keyed
mapping, `Call` in `src/client.go` returns the decode error — the `Except`
result carries no mapping at all, partial or otherwise. -/
theorem C6_undecodable_body_is_decode_error
    (clt : Client) (fresh : HttpTransport) (method path : String)
    (headers params : List (String × GoValue)) (req : Request)
    (s : Nat) (b : BodyData)
    (hreq : V1.buildRequest (ensureClientInitialized clt fresh) method path
      headers params = .ok req)
    (hb : decodeBody b = none) :
    (V1.Call (fun _ => .ok { status := s, body := b }) fresh clt method path
      headers params).2 = .error .decodeError := by
  simp [V1.Call, hreq, parseJSONResponse, hb]

/-- Client for the C6 witness. -/
def c6Client : Client :=
  { client := some ⟨3⟩, endpoint := "e", headers := some [],
    selfSigned := false }

/-- The request `src/client.go` builds for `GET /s` on `c6Client`. -/
def c6Req : Request :=
  { method := "GET", url := { base := "e/s", query := [] }, header := [],
    body := none }

/-- A 200 response with a malformed body. -/
def c6Bad200 : Response := { status := 200, body := .malformed }

/-- Witness for C6 at a malformed 200 response. -/
theorem C6_witness :
    V1.buildRequest (ensureClientInitialized c6Client ⟨0⟩) "GET" "/s" [] []
      = .ok c6Req
    ∧ decodeBody .malformed = none
    ∧ (V1.Call (fun _ => .ok c6Bad200) ⟨0⟩
        c6Client "GET" "/s" [] []).2 = .error .decodeError :=
  ⟨rfl, rfl, C6_undecodable_body_is_decode_error c6Client ⟨0⟩ "GET" "/s" []
    [] c6Req 200 .malformed rfl rfl⟩

/-! ### Claim C7 -/

/-- C7: the transport handle is created at most once and never replaced,
through either source file's `Call`: after one `Call`, the Client's handle
is the pre-existing one if there was one and the freshly allocated one
otherwise, and any second `Call` on the resulting Client — through either
variant, with any other network, allocation, method and arguments — still
carries that same handle. -/
theorem C7_transport_created_once_and_reused
    (net net2 : Request → Except GoError Response)
    (fresh fresh2 : HttpTransport) (clt : Client) (m p m2 p2 : String)
    (hs ps hs2 ps2 : List (String × GoValue)) :
    ((V1.Call net fresh clt m p hs ps).1.client
        = some (clt.client.getD fresh)
     ∧ (V1.Call net2 fresh2 (V1.Call net fresh clt m p hs ps).1 m2 p2 hs2
         ps2).1.client = some (clt.client.getD fresh)
     ∧ (V2.Call net2 fresh2 (V1.Call net fresh clt m p hs ps).1 m2 p2 hs2
         ps2).1.client = some (clt.client.getD fresh))
    ∧ ((V2.Call net fresh clt m p hs ps).1.client
        = some (clt.client.getD fresh)
     ∧ (V2.Call net2 fresh2 (V2.Call net fresh clt m p hs ps).1 m2 p2 hs2
         ps2).1.client = some (clt.client.getD fresh)
     ∧ (V1.Call net2 fresh2 (V2.Call net fresh clt m p hs ps).1 m2 p2 hs2
         ps2).1.client = some (clt.client.getD fresh)) := by
  refine ⟨⟨?_, ?_, ?_⟩, ⟨?_, ?_, ?_⟩⟩ <;>
    simp [V1Call_fst, V2Call_fst, ensureClientInitialized_client]

/-! ### Claim C8 -/

/-- C8: the two files implement the same client up to log text and the
forced `Content-Type` header; in particular, for every GET invocation
(method case-insensitively `GET`) they build identical requests for any
client state and return identical results. -/
theorem C8_variants_agree_on_get
    (net : Request → Except GoError Response) (fresh : HttpTransport)
    (clt c : Client) (method path : String)
    (headers params : List (String × GoValue))
    (hm : stringsToUpper method = "GET") :
    V1.buildRequest c method path headers params
      = V2.buildRequest c method path headers params ∧
    V1.Call net fresh clt method path headers params
      = V2.Call net fresh clt method path headers params := by
  have hb : ∀ c' : Client, V1.buildRequest c' method path headers params
      = V2.buildRequest c' method path headers params := by
    intro c'
    simp only [V1.buildRequest, V2.buildRequest, hm, eq_self_iff_true,
      if_true]
  exact ⟨hb c, by simp only [V1.Call, V2.Call, hb]⟩

/-- Client for the C8 witness. -/
def c8Client : Client :=
  { client := none, endpoint := "e", headers := some [("X-One", "1")],
    selfSigned := false }

/-- Network oracle for the C8 witness. -/
def c8Net : Request → Except GoError Response :=
  fun _ => .ok { status := 200, body := .json (.obj []) }

/-- Witness for C8 at the concrete GET invocation `get /p`. -/
theorem C8_witness :
    stringsToUpper "get" = "GET"
    ∧ V1.Call c8Net ⟨0⟩ c8Client "get" "/p" [] [("a", .num 1)]
      = V2.Call c8Net ⟨0⟩ c8Client "get" "/p" [] [("a", .num 1)] :=
  ⟨by decide, (C8_variants_agree_on_get c8Net ⟨0⟩ c8Client c8Client "get"
    "/p" [] [("a", .num 1)] (by decide)).2⟩

/-! ### Claim C9 -/

/-- C9: on the zero-value Client — whose default-header map no code in this
repository ever initialises — `AddHeader`, `SetProject`, `SetKey`,
`SetLocale` and `SetMode` all write to the nil map and panic (modelled as
`none`) instead of recording the header, for every argument value. -/
theorem C9_zero_value_setters_panic (k v pr ky lo mo : String) :
    AddHeader zeroClient k v = none
    ∧ SetProject zeroClient pr = none
    ∧ SetKey zeroClient ky = none
    ∧ SetLocale zeroClient lo = none
    ∧ SetMode zeroClient mo = none :=
  ⟨rfl, rfl, rfl, rfl, rfl⟩

/-! ### Claim C10 -/

/-- C10: in both variants, `Call` leaves `endpoint`, the default-header map
and `selfSigned` untouched; the only field it may change is the transport
handle, and only by initialising it from nil (afterwards it equals the old
handle when there was one, the fresh one otherwise). -/
theorem C10_call_frame (net : Request → Except GoError Response)
    (fresh : HttpTransport) (clt : Client) (m p : String)
    (hs ps : List (String × GoValue)) :
    ((V1.Call net fresh clt m p hs ps).1.endpoint = clt.endpoint
     ∧ (V1.Call net fresh clt m p hs ps).1.headers = clt.headers
     ∧ (V1.Call net fresh clt m p hs ps).1.selfSigned = clt.selfSigned
     ∧ (V1.Call net fresh clt m p hs ps).1.client
        = some (clt.client.getD fresh))
    ∧ ((V2.Call net fresh clt m p hs ps).1.endpoint = clt.endpoint
     ∧ (V2.Call net fresh clt m p hs ps).1.headers = clt.headers
     ∧ (V2.Call net fresh clt m p hs ps).1.selfSigned = clt.selfSigned
     ∧ (V2.Call net fresh clt m p hs ps).1.client
        = some (clt.client.getD fresh)) := by
  refine ⟨⟨?_, ?_, ?_, ?_⟩, ⟨?_, ?_, ?_, ?_⟩⟩ <;>
    simp [V1Call_fst, V2Call_fst, ensureClientInitialized_endpoint,
      ensureClientInitialized_headers, ensureClientInitialized_selfSigned,
      ensureClientInitialized_client]

end Appwrite
